import Mathlib

/-!
Shallow embedding of the persistence-and-export subsystem of
`src/src/components/ExpenseTracker.tsx` (a React expense-tracking widget),
together with proofs about its operations.

JavaScript numbers are modelled as `Option ℚ`, where `none` stands for `NaN`
(the only non-finite value this code can produce, via `parseFloat` on a
non-numeric string) and `some q` for a finite value.  All amounts the widget
handles are small decimals, on which double arithmetic is exact, so `ℚ` is a
faithful carrier for the finite case.
-/

namespace PocketWise

/-- The `Expense` interface of the source: one record of the store. -/
structure Expense where
  id : String
  amount : Option ℚ
  description : String
  category : String
  date : String
deriving DecidableEq, Repr

/-- One entry of the fixed category catalog. -/
structure Category where
  value : String
  label : String
  color : String
deriving DecidableEq, Repr

/-- The module-level `categories` constant of the source. -/
def categories : List Category :=
  [ ⟨"food", "Food & Dining", "category-food"⟩,
    ⟨"transport", "Transportation", "category-transport"⟩,
    ⟨"entertainment", "Entertainment", "category-entertainment"⟩,
    ⟨"shopping", "Shopping", "category-shopping"⟩,
    ⟨"utilities", "Bills & Utilities", "category-utilities"⟩,
    ⟨"healthcare", "Healthcare", "category-healthcare"⟩,
    ⟨"other", "Other", "category-other"⟩ ]

/-- A fire-and-forget user notification (`toast.success` / `toast.error`). -/
inductive Toast
  | success (msg : String)
  | error (msg : String)
deriving DecidableEq, Repr

/-- Digit list to natural number, most significant first. -/
def digitsToNat (ds : List Char) : Nat :=
  ds.foldl (fun a c => a * 10 + (c.toNat - 48)) 0

/-- Model of ECMAScript `parseFloat` restricted to plain decimal notation
(optional sign, integer part, optional fraction; trailing garbage ignored).
Exponent notation and `Infinity` are not produced by this widget's inputs.
`none` models the `NaN` result. -/
def parseFloat (s : String) : Option ℚ :=
  let cs := s.toList.dropWhile (fun c => c == ' ' || c == '\t' || c == '\n' || c == '\r')
  let sgn : ℚ × List Char :=
    match cs with
    | '-' :: r => (-1, r)
    | '+' :: r => (1, r)
    | _ => (1, cs)
  let intPart := sgn.2.takeWhile Char.isDigit
  let rest := sgn.2.dropWhile Char.isDigit
  let fracPart : List Char :=
    match rest with
    | '.' :: r => r.takeWhile Char.isDigit
    | _ => []
  if intPart.isEmpty && fracPart.isEmpty then none
  else some (sgn.1 * ((digitsToNat intPart : ℚ) +
    (digitsToNat fracPart : ℚ) / (10 : ℚ) ^ fracPart.length))

/-- Addition of JS numbers: `NaN` is absorbing. -/
def jadd : Option ℚ → Option ℚ → Option ℚ
  | some a, some b => some (a + b)
  | _, _ => none

/-- `expenses.reduce((sum, expense) => sum + expense.amount, 0)` of the source. -/
def totalExpenses (es : List Expense) : Option ℚ :=
  es.foldl (fun sum e => jadd sum e.amount) (some 0)

/-- Model of JS `Number.prototype.toFixed(2)`: round to the nearest hundredth,
ties toward the larger value; `NaN` prints as `"NaN"`. -/
def toFixed2 : Option ℚ → String
  | none => "NaN"
  | some q =>
    let n : ℤ := (q * 100 + 1 / 2).floor
    let fmt : Nat → String := fun m =>
      toString (m / 100) ++ "." ++ (if m % 100 < 10 then "0" else "") ++ toString (m % 100)
    if n < 0 then "-" ++ fmt (-n).toNat else fmt n.toNat

/-- `categories.find(c => c.value === v)?.label || v` of the export routines:
the display label when the code is recognized (and its label truthy),
otherwise the raw code. -/
def categoryLabel (v : String) : String :=
  match (categories.find? (fun c => c.value == v)).map Category.label with
  | some l => if l = "" then v else l
  | none => v

/-- JSON string literal without escaping.  The records this development
serializes contain no quotes, backslashes or control characters, on which
`JSON.stringify` would escape. -/
def jsonQuote (s : String) : String := "\"" ++ s ++ "\""

/-- Decimal rendering of a JS number for `JSON.stringify`: integers without a
point, finite decimals with the minimal number of fraction digits (the values
this widget stores), `NaN` as `null` (as `JSON.stringify` does). -/
def jsNumToString : Option ℚ → String
  | none => "null"
  | some q =>
    let sign := if q.num < 0 then "-" else ""
    let q' := if q.num < 0 then -q else q
    if q'.den = 1 then sign ++ toString q'.num
    else
      match (List.range 21).find? (fun i => (q' * 10 ^ i).den = 1) with
      | some i =>
        let digitsStr := toString (q' * 10 ^ i).num
        let pad :=
          if digitsStr.length < i + 1 then
            String.mk (List.replicate (i + 1 - digitsStr.length) '0') ++ digitsStr
          else digitsStr
        sign ++ pad.take (pad.length - i) ++ "." ++ pad.drop (pad.length - i)
      | none => sign ++ toString q'.num ++ "/" ++ toString q'.den

/-- `JSON.stringify` of one expense record, field order as declared. -/
def stringifyExpense (e : Expense) : String :=
  "\x7b\"id\":" ++ jsonQuote e.id ++
  ",\"amount\":" ++ jsNumToString e.amount ++
  ",\"description\":" ++ jsonQuote e.description ++
  ",\"category\":" ++ jsonQuote e.category ++
  ",\"date\":" ++ jsonQuote e.date ++ "\x7d"

/-- `JSON.stringify` of the expense array. -/
def stringifyExpenses (es : List Expense) : String :=
  "[" ++ String.intercalate "," (es.map stringifyExpense) ++ "]"

/-- The component's externally observable state: the in-memory list and the
`localStorage` entry under the fixed key `'expenses'` (`none` = key absent). -/
structure AppState where
  expenses : List Expense
  storage : Option String
deriving DecidableEq, Repr

/-- The save-on-change `useEffect`: after every committed change to
`expenses`, `localStorage.setItem('expenses', JSON.stringify(expenses))`. -/
def saveEffect (s : AppState) : AppState :=
  ⟨s.expenses, some (stringifyExpenses s.expenses)⟩

/-- `addExpense` of the source, with the component's input-field state
(`amount`, `description`, `category` strings), `Date.now()` and
`new Date().toLocaleDateString()` passed explicitly, followed by the save
effect when the state changed.  Validation is `!amount || !description ||
!category`, i.e. the empty-string test on each field. -/
def addExpense (now : Nat) (dateStr amount description category : String)
    (s : AppState) : AppState × Toast :=
  if amount = "" ∨ description = "" ∨ category = "" then
    (s, .error "Please fill in all fields")
  else
    let newExpense : Expense :=
      { id := toString now
        amount := parseFloat amount
        description := description
        category := category
        date := dateStr }
    (saveEffect ⟨newExpense :: s.expenses, s.storage⟩,
     .success "Expense added successfully!")

/-- `deleteExpense` of the source: filter out the matching id, success toast
unconditionally, then the save effect. -/
def deleteExpense (id : String) (s : AppState) : AppState × Toast :=
  (saveEffect ⟨s.expenses.filter (fun e => e.id != id), s.storage⟩,
   .success "Expense deleted")

/-- `resetAllExpenses` of the source: `setExpenses([])` and
`localStorage.removeItem('expenses')`; the save-on-change effect then runs on
the committed empty list and re-writes the key. -/
def resetAllExpenses (_s : AppState) : AppState × Toast :=
  (saveEffect ⟨[], none⟩, .success "All expenses cleared")

/-! ### A model of `JSON.parse`

The load path calls the platform's `JSON.parse` on the stored blob and adopts
whatever it returns; a parse failure is a thrown `SyntaxError`.  The parser
below models the JSON grammar (strings with the simple escapes, numbers with
optional fraction and exponent, arrays, objects, literals); `\u` escapes are
not modelled, as nothing this widget stores produces them. -/

/-- JSON values, as `JSON.parse` produces them. -/
inductive Json
  | null
  | bool (b : Bool)
  | num (q : ℚ)
  | str (s : String)
  | arr (xs : List Json)
  | obj (kvs : List (String × Json))
deriving Repr

/-- Skip JSON whitespace. -/
def skipWs (cs : List Char) : List Char :=
  cs.dropWhile (fun c => c == ' ' || c == '\t' || c == '\n' || c == '\r')

/-- Parse the rest of a JSON string literal (after the opening quote),
accumulator in reverse. -/
def pStringAux : List Char → List Char → Option (String × List Char)
  | acc, '"' :: r => some (String.mk acc.reverse, r)
  | acc, '\\' :: c :: r =>
    match c with
    | '"' => pStringAux ('"' :: acc) r
    | '\\' => pStringAux ('\\' :: acc) r
    | '/' => pStringAux ('/' :: acc) r
    | 'n' => pStringAux ('\n' :: acc) r
    | 't' => pStringAux ('\t' :: acc) r
    | 'r' => pStringAux ('\r' :: acc) r
    | 'b' => pStringAux (Char.ofNat 8 :: acc) r
    | 'f' => pStringAux (Char.ofNat 12 :: acc) r
    | _ => none
  | _, ['\\'] => none
  | acc, c :: r => pStringAux (c :: acc) r
  | _, [] => none

/-- Parse a JSON number (sign, integer part without leading zeros, optional
fraction, optional exponent). -/
def pNumber (cs : List Char) : Option (ℚ × List Char) :=
  let sgn : ℚ × List Char :=
    match cs with
    | '-' :: r => (-1, r)
    | _ => (1, cs)
  let intPart := sgn.2.takeWhile Char.isDigit
  let r₁ := sgn.2.dropWhile Char.isDigit
  if intPart.isEmpty || (decide (1 < intPart.length) && intPart.head? == some '0') then
    none
  else
    let fracSplit : List Char × List Char × Bool :=
      match r₁ with
      | '.' :: r => (r.takeWhile Char.isDigit, r.dropWhile Char.isDigit, true)
      | _ => ([], r₁, false)
    let fracPart := fracSplit.1
    let r₂ := fracSplit.2.1
    if fracSplit.2.2 && fracPart.isEmpty then none
    else
      let base : ℚ := sgn.1 * ((digitsToNat intPart : ℚ) +
        (digitsToNat fracPart : ℚ) / (10 : ℚ) ^ fracPart.length)
      match r₂ with
      | c :: r =>
        if c == 'e' || c == 'E' then
          let esgn : Bool × List Char :=
            match r with
            | '-' :: rr => (true, rr)
            | '+' :: rr => (false, rr)
            | _ => (false, r)
          let eDigits := esgn.2.takeWhile Char.isDigit
          if eDigits.isEmpty then none
          else
            let e := digitsToNat eDigits
            some (if esgn.1 then base / 10 ^ e else base * 10 ^ e,
              esgn.2.dropWhile Char.isDigit)
        else some (base, r₂)
      | [] => some (base, [])

mutual

/-- Parse one JSON value; the fuel bounds nesting depth. -/
def pValue : Nat → List Char → Option (Json × List Char)
  | 0, _ => none
  | fuel + 1, cs =>
    match skipWs cs with
    | 'n' :: 'u' :: 'l' :: 'l' :: r => some (.null, r)
    | 't' :: 'r' :: 'u' :: 'e' :: r => some (.bool true, r)
    | 'f' :: 'a' :: 'l' :: 's' :: 'e' :: r => some (.bool false, r)
    | '"' :: r => (pStringAux [] r).map (fun p => (.str p.1, p.2))
    | '[' :: r =>
      (match skipWs r with
       | ']' :: r₂ => some (.arr [], r₂)
       | cs₂ => (pItems fuel cs₂).map (fun p => (.arr p.1, p.2)))
    | '{' :: r =>
      (match skipWs r with
       | '}' :: r₂ => some (.obj [], r₂)
       | cs₂ => (pMembers fuel cs₂).map (fun p => (.obj p.1, p.2)))
    | cs' => (pNumber cs').map (fun p => (.num p.1, p.2))

/-- Parse the non-empty comma-separated items of an array, up to `]`. -/
def pItems : Nat → List Char → Option (List Json × List Char)
  | 0, _ => none
  | fuel + 1, cs =>
    match pValue fuel cs with
    | none => none
    | some (v, r) =>
      match skipWs r with
      | ',' :: r₂ => (pItems fuel r₂).map (fun p => (v :: p.1, p.2))
      | ']' :: r₂ => some ([v], r₂)
      | _ => none

/-- Parse the non-empty comma-separated members of an object, up to the
closing brace. -/
def pMembers : Nat → List Char → Option (List (String × Json) × List Char)
  | 0, _ => none
  | fuel + 1, cs =>
    match skipWs cs with
    | '"' :: r =>
      (match pStringAux [] r with
       | none => none
       | some (k, r₂) =>
         match skipWs r₂ with
         | ':' :: r₃ =>
           (match pValue fuel r₃ with
            | none => none
            | some (v, r₄) =>
              match skipWs r₄ with
              | ',' :: r₅ => (pMembers fuel r₅).map (fun p => ((k, v) :: p.1, p.2))
              | '}' :: r₅ => some ([(k, v)], r₅)
              | _ => none)
         | _ => none)
    | _ => none

end

/-- Model of `JSON.parse`: `none` models a thrown `SyntaxError`. -/
def jsonParse (s : String) : Option Json :=
  match pValue (s.length + 1) s.toList with
  | some (v, r) => if skipWs r = [] then some v else none
  | none => none

/-- The load `useEffect` of the source: `localStorage.getItem('expenses')`;
if present, `setExpenses(JSON.parse(saved))` — the parsed value is adopted
with no validation that it is a record list, and a parse failure is an
uncaught `SyntaxError`; if absent, the initial `[]` state stands.  The result
is the adopted JSON value (the empty array standing for the initial empty
list) or the propagated error. -/
def loadStore : Option String → Except String Json
  | none => .ok (.arr [])
  | some s =>
    match jsonParse s with
    | some j => .ok j
    | none => .error "SyntaxError: Unexpected token in JSON"

/-! ### The Export Engine -/

/-- `exportToCSV` of the source: empty-snapshot check, then the header row
followed by one row per record, each row joined with `","` and the rows
joined with `"\n"`.  The result pairs the produced file (filename, contents)
with the toast; `none` models "no file produced". -/
def exportToCSV (expenses : List Expense) : Option (String × String) × Toast :=
  if expenses.length = 0 then
    (none, .error "No expenses to export")
  else
    let csvContent :=
      String.intercalate "\n"
        ((["Date", "Description", "Category", "Amount"] ::
          expenses.map (fun exp =>
            [exp.date, exp.description, categoryLabel exp.category,
             toFixed2 exp.amount])).map (String.intercalate ","))
    (some ("cleaned_financial_data.csv", csvContent),
     .success "CSV exported successfully")

/-- A worksheet: the header row and the data rows. -/
structure Sheet where
  header : List String
  rows : List (List String)
deriving DecidableEq, Repr

/-- A workbook: named sheets in order of appending. -/
structure Workbook where
  sheets : List (String × Sheet)
deriving DecidableEq, Repr

/-- Header of `XLSX.utils.json_to_sheet`: the union of the rows' keys in
first-seen order. -/
def sheetHeaders (rows : List (List (String × String))) : List String :=
  rows.foldl
    (fun acc r => acc ++ (r.map Prod.fst).filter (fun k => !(acc.contains k))) []

/-- One data row of `json_to_sheet`: the values in header order, blank when a
key is missing. -/
def sheetRow (hs : List String) (r : List (String × String)) : List String :=
  hs.map (fun h => (((r.find? (fun kv => kv.1 == h)).map Prod.snd).getD ""))

/-- Model of `XLSX.utils.json_to_sheet`. -/
def json_to_sheet (rows : List (List (String × String))) : Sheet :=
  ⟨sheetHeaders rows, rows.map (sheetRow (sheetHeaders rows))⟩

/-- `exportToExcel` of the source: empty-snapshot check, per-record objects
with the literal keys `Date`, `Description`, `Category` and `"Amount 💸"`,
one sheet appended to a fresh book under the name `"Expenses"`. -/
def exportToExcel (expenses : List Expense) : Option (String × Workbook) × Toast :=
  if expenses.length = 0 then
    (none, .error "No expenses to export")
  else
    let data := expenses.map (fun exp =>
      [("Date", exp.date), ("Description", exp.description),
       ("Category", categoryLabel exp.category),
       ("Amount 💸", toFixed2 exp.amount)])
    let ws := json_to_sheet data
    (some ("cleaned_financial_data.xlsx", ⟨[("Expenses", ws)]⟩),
     .success "Excel file exported successfully")

/-- A rendered PDF: the title line and the autoTable head and body. -/
structure PdfDoc where
  title : String
  head : List (List String)
  body : List (List String)
deriving DecidableEq, Repr

/-- `exportToPDF` of the source: empty-snapshot check, title line, table with
the four-column head and one row per record. -/
def exportToPDF (expenses : List Expense) : Option (String × PdfDoc) × Toast :=
  if expenses.length = 0 then
    (none, .error "No expenses to export")
  else
    let tableData := expenses.map (fun exp =>
      [exp.date, exp.description, categoryLabel exp.category,
       toFixed2 exp.amount])
    (some ("cleaned_financial_data.pdf",
      ⟨"Financial Data 💸", [["Date", "Description", "Category", "Amount 💸"]],
       tableData⟩),
     .success "PDF exported successfully")

/-! ### Traces of user actions -/

/-- One user action on the Record Store. -/
inductive Action
  | add (now : Nat) (dateStr amount description category : String)
  | delete (id : String)
  | reset
deriving DecidableEq, Repr

/-- The state one action leads to (its toast discarded). -/
def step (s : AppState) : Action → AppState
  | .add now dateStr amount description category =>
      (addExpense now dateStr amount description category s).1
  | .delete id => (deleteExpense id s).1
  | .reset => (resetAllExpenses s).1

/-- The state a sequence of actions leads to. -/
def run (as : List Action) (s : AppState) : AppState := as.foldl step s

/-- The initial state of a fresh session: empty list, key absent. -/
def initialState : AppState := ⟨[], none⟩

/-- The ids the Add actions of a trace would assign
(`Date.now().toString()`). -/
def addIds : List Action → List String
  | [] => []
  | .add now _ _ _ _ :: r => toString now :: addIds r
  | _ :: r => addIds r

/-- The concrete scenario of the specification: `Add(25.50, "Coffee",
"food")` then `Add(12.00, "Bus", "transport")`, at consecutive
timestamps. -/
def demoState : AppState :=
  run [.add 1000 "1/1/2026" "25.50" "Coffee" "food",
       .add 1001 "1/2/2026" "12.00" "Bus" "transport"] initialState

/-! ### Helper lemmas -/

lemma jadd_right_comm (x a b : Option ℚ) :
    jadd (jadd x a) b = jadd (jadd x b) a := by
  cases x <;> cases a <;> cases b <;> simp [jadd, add_right_comm]

lemma foldl_jadd_shift (es : List Expense) (init a : Option ℚ) :
    es.foldl (fun sum e => jadd sum e.amount) (jadd init a) =
      jadd (es.foldl (fun sum e => jadd sum e.amount) init) a := by
  induction es generalizing init with
  | nil => rfl
  | cons e es ih =>
    simp only [List.foldl_cons]
    rw [jadd_right_comm]
    exact ih _

lemma totalExpenses_cons (e : Expense) (es : List Expense) :
    totalExpenses (e :: es) = jadd (totalExpenses es) e.amount := by
  unfold totalExpenses
  simp only [List.foldl_cons]
  exact foldl_jadd_shift es (some 0) e.amount

lemma deleteExpense_filter (id : String) (s : AppState) :
    (deleteExpense id s).1.expenses = s.expenses.filter (fun e => e.id != id) :=
  rfl

lemma filter_ne_of_not_mem (id : String) (es : List Expense)
    (h : id ∉ es.map Expense.id) :
    es.filter (fun e => e.id != id) = es := by
  apply List.filter_eq_self.mpr
  intro e he
  simp only [bne_iff_ne, ne_eq, decide_eq_true_eq]
  intro hEq
  exact h (hEq ▸ List.mem_map_of_mem Expense.id he)

/-! ### The claims -/

/-- Claim C6: adding a valid record (all three input fields non-empty)
prepends exactly one new record carrying the parsed amount, increases Count
by 1, increases Total by exactly that record's amount, and reports
success. -/
theorem addExpense_valid_spec (now : Nat)
    (dateStr amount description category : String) (s : AppState)
    (ha : amount ≠ "") (hd : description ≠ "") (hc : category ≠ "") :
    (addExpense now dateStr amount description category s).1.expenses =
      ({ id := toString now, amount := parseFloat amount,
         description := description, category := category,
         date := dateStr } : Expense) :: s.expenses ∧
    (addExpense now dateStr amount description category s).1.expenses.length =
      s.expenses.length + 1 ∧
    totalExpenses (addExpense now dateStr amount description category s).1.expenses =
      jadd (totalExpenses s.expenses) (parseFloat amount) ∧
    (addExpense now dateStr amount description category s).2 =
      Toast.success "Expense added successfully!" := by
  have hcond : ¬(amount = "" ∨ description = "" ∨ category = "") := by
    push_neg
    exact ⟨ha, hd, hc⟩
  have h1 : (addExpense now dateStr amount description category s).1.expenses =
      ({ id := toString now, amount := parseFloat amount,
         description := description, category := category,
         date := dateStr } : Expense) :: s.expenses := by
    simp [addExpense, if_neg hcond, saveEffect]
  refine ⟨h1, ?_, ?_, ?_⟩
  · rw [h1]
    simp
  · rw [h1]
    exact totalExpenses_cons _ _
  · simp [addExpense, if_neg hcond]

/-- Witness for C6: adding 25.50 / "Coffee" / "food" to the fresh session at
timestamp 1000. -/
theorem addExpense_valid_spec_witness :
    (addExpense 1000 "1/1/2026" "25.50" "Coffee" "food" initialState).1.expenses =
      ({ id := "1000", amount := parseFloat "25.50", description := "Coffee",
         category := "food", date := "1/1/2026" } : Expense) ::
        initialState.expenses ∧
    (addExpense 1000 "1/1/2026" "25.50" "Coffee" "food"
        initialState).1.expenses.length = initialState.expenses.length + 1 ∧
    totalExpenses
        (addExpense 1000 "1/1/2026" "25.50" "Coffee" "food"
          initialState).1.expenses =
      jadd (totalExpenses initialState.expenses) (parseFloat "25.50") ∧
    (addExpense 1000 "1/1/2026" "25.50" "Coffee" "food" initialState).2 =
      Toast.success "Expense added successfully!" :=
  addExpense_valid_spec 1000 "1/1/2026" "25.50" "Coffee" "food" initialState
    (by decide) (by decide) (by decide)

/-- Claim C7: on a list with unique ids (the Record Store's data-model
invariant), Delete(id) is a no-op when no record carries the id, and
otherwise removes exactly the matching record — wherever it sits — leaving
the other records unchanged in order and decreasing Count by 1. -/
theorem deleteExpense_spec (id : String) (s : AppState)
    (hnodup : (s.expenses.map Expense.id).Nodup) :
    (id ∉ s.expenses.map Expense.id →
      (deleteExpense id s).1.expenses = s.expenses) ∧
    (∀ l₁ e l₂, s.expenses = l₁ ++ e :: l₂ → e.id = id →
      (deleteExpense id s).1.expenses = l₁ ++ l₂ ∧
      (deleteExpense id s).1.expenses.length + 1 = s.expenses.length) := by
  constructor
  · intro hid
    rw [deleteExpense_filter]
    exact filter_ne_of_not_mem id s.expenses hid
  · intro l₁ e l₂ hsplit hid
    subst hid
    rw [deleteExpense_filter, hsplit]
    rw [hsplit] at hnodup
    simp only [List.map_append, List.map_cons] at hnodup
    rw [List.nodup_append] at hnodup
    obtain ⟨-, hcons, hdisj⟩ := hnodup
    rw [List.nodup_cons] at hcons
    have hl₂ : ∀ x ∈ l₂, x.id ≠ e.id := by
      intro x hx hEq
      exact hcons.1 (hEq ▸ List.mem_map_of_mem Expense.id hx)
    have hl₁ : ∀ x ∈ l₁, x.id ≠ e.id := by
      intro x hx hEq
      exact hdisj (hEq ▸ List.mem_map_of_mem Expense.id hx)
        (List.mem_cons_self _ _)
    have hfil₁ : l₁.filter (fun x => x.id != e.id) = l₁ := by
      apply List.filter_eq_self.mpr
      intro x hx
      simpa using hl₁ x hx
    have hfil₂ : l₂.filter (fun x => x.id != e.id) = l₂ := by
      apply List.filter_eq_self.mpr
      intro x hx
      simpa using hl₂ x hx
    constructor
    · rw [List.filter_append, hfil₁, List.filter_cons]
      simp [hfil₂]
    · rw [List.filter_append, hfil₁, List.filter_cons]
      simp [hfil₂]
      omega

/-- Witness for C7: deleting id "2" out of the middle of `[1, 2, 3]` leaves
`[1, 3]`. -/
theorem deleteExpense_spec_witness :
    (deleteExpense "2"
        ⟨[⟨"1", some 1, "a", "food", "d"⟩, ⟨"2", some 2, "b", "food", "d"⟩,
          ⟨"3", some 3, "c", "food", "d"⟩], none⟩).1.expenses =
      [⟨"1", some 1, "a", "food", "d"⟩] ++ [⟨"3", some 3, "c", "food", "d"⟩] ∧
    (deleteExpense "2"
        ⟨[⟨"1", some 1, "a", "food", "d"⟩, ⟨"2", some 2, "b", "food", "d"⟩,
          ⟨"3", some 3, "c", "food", "d"⟩], none⟩).1.expenses.length + 1 =
      ([⟨"1", some 1, "a", "food", "d"⟩, ⟨"2", some 2, "b", "food", "d"⟩,
        ⟨"3", some 3, "c", "food", "d"⟩] : List Expense).length :=
  (deleteExpense_spec "2"
      ⟨[⟨"1", some 1, "a", "food", "d"⟩, ⟨"2", some 2, "b", "food", "d"⟩,
        ⟨"3", some 3, "c", "food", "d"⟩], none⟩ (by decide)).2
    [⟨"1", some 1, "a", "food", "d"⟩] ⟨"2", some 2, "b", "food", "d"⟩
    [⟨"3", some 3, "c", "food", "d"⟩] rfl rfl

/-- Claim C8: with an empty snapshot each of the three exports reports the
"nothing to export" error and produces no file; the exports are pure readers
of the snapshot and never touch the Record Store. -/
theorem export_empty_spec (s : AppState) (h : s.expenses = []) :
    exportToCSV s.expenses = (none, Toast.error "No expenses to export") ∧
    exportToExcel s.expenses = (none, Toast.error "No expenses to export") ∧
    exportToPDF s.expenses = (none, Toast.error "No expenses to export") := by
  rw [h]
  exact ⟨rfl, rfl, rfl⟩

/-- Witness for C8: the fresh session's snapshot is empty. -/
theorem export_empty_spec_witness :
    exportToCSV initialState.expenses =
      (none, Toast.error "No expenses to export") ∧
    exportToExcel initialState.expenses =
      (none, Toast.error "No expenses to export") ∧
    exportToPDF initialState.expenses =
      (none, Toast.error "No expenses to export") :=
  export_empty_spec initialState rfl

/-- Claim C10: Delete fires the "Expense deleted" success toast
unconditionally — in particular also when no record carries the id and the
list is left unchanged. -/
theorem deleteExpense_toast_unconditional (id : String) (s : AppState) :
    (deleteExpense id s).2 = Toast.success "Expense deleted" ∧
    (id ∉ s.expenses.map Expense.id →
      (deleteExpense id s).1.expenses = s.expenses ∧
      (deleteExpense id s).2 = Toast.success "Expense deleted") := by
  refine ⟨rfl, fun hid => ⟨?_, rfl⟩⟩
  rw [deleteExpense_filter]
  exact filter_ne_of_not_mem id s.expenses hid

/-- Witness for C10: deleting the unknown id "404" from a one-record list
still reports "Expense deleted" and changes nothing. -/
theorem deleteExpense_toast_unconditional_witness :
    (deleteExpense "404" ⟨[⟨"1", some 1, "a", "food", "d"⟩], none⟩).2 =
      Toast.success "Expense deleted" ∧
    ("404" ∉ ([⟨"1", some 1, "a", "food", "d"⟩] : List Expense).map Expense.id →
      (deleteExpense "404" ⟨[⟨"1", some 1, "a", "food", "d"⟩], none⟩).1.expenses =
        [⟨"1", some 1, "a", "food", "d"⟩] ∧
      (deleteExpense "404" ⟨[⟨"1", some 1, "a", "food", "d"⟩], none⟩).2 =
        Toast.success "Expense deleted") :=
  deleteExpense_toast_unconditional "404" ⟨[⟨"1", some 1, "a", "food", "d"⟩], none⟩

/-- Counterexample to claim C1: the stored blob "oops" is malformed
(`JSON.parse` fails on it), yet the load path surfaces the thrown
`SyntaxError` instead of starting with the empty list — there is no
try/catch around `JSON.parse`. -/
theorem loadStore_malformed_throws_counterexample :
    jsonParse "oops" = none ∧
    loadStore (some "oops") =
      Except.error "SyntaxError: Unexpected token in JSON" :=
  ⟨rfl, rfl⟩

/-- Claim C1 as amended: with the key absent the store starts empty; with a
well-formed stored blob the parsed value is adopted unconditionally (no
validation that it is a record list); with a malformed blob the parse error
propagates instead of degrading to the empty list. -/
theorem loadStore_spec :
    loadStore none = Except.ok (Json.arr []) ∧
    (∀ s j, jsonParse s = some j → loadStore (some s) = Except.ok j) ∧
    (∀ s, jsonParse s = none →
      loadStore (some s) =
        Except.error "SyntaxError: Unexpected token in JSON") := by
  refine ⟨rfl, ?_, ?_⟩
  · intro s j h
    simp [loadStore, h]
  · intro s h
    simp [loadStore, h]

/-- Witness for the amended C1: the stored blob "[]" is adopted as the empty
array, and the stored blob "nope" makes the load path error out. -/
theorem loadStore_spec_witness :
    loadStore (some "[]") = Except.ok (Json.arr []) ∧
    loadStore (some "nope") =
      Except.error "SyntaxError: Unexpected token in JSON" :=
  ⟨loadStore_spec.2.1 "[]" (Json.arr []) rfl, loadStore_spec.2.2 "nope" rfl⟩

/-- Counterexample to claim C2: Reset from a state holding one record leaves
the storage key PRESENT, holding "[]" — the save-on-change effect re-writes
the key right after `removeItem` — rather than absent as claimed. -/
theorem reset_storage_key_counterexample :
    (resetAllExpenses
        ⟨[⟨"100", some 1, "Coffee", "food", "1/1/2026"⟩], some "old"⟩).1.storage =
      some "[]" ∧
    (resetAllExpenses
        ⟨[⟨"100", some 1, "Coffee", "food", "1/1/2026"⟩], some "old"⟩).1.storage ≠
      none :=
  ⟨rfl, by simp [resetAllExpenses, saveEffect]⟩

/-- Claim C2 as amended: Reset empties the in-memory list, makes Total 0 and
reports success; it removes the storage key, but the save-on-change effect
then stores the empty list's serialization, so afterwards the key holds
"[]" (it is not absent) — and a fresh load of that value still yields the
empty list. -/
theorem resetAllExpenses_spec (s : AppState) :
    (resetAllExpenses s).1.expenses = [] ∧
    totalExpenses (resetAllExpenses s).1.expenses = some 0 ∧
    (resetAllExpenses s).1.storage = some (stringifyExpenses []) ∧
    stringifyExpenses [] = "[]" ∧
    loadStore (resetAllExpenses s).1.storage = Except.ok (Json.arr []) ∧
    (resetAllExpenses s).2 = Toast.success "All expenses cleared" :=
  ⟨rfl, rfl, rfl, rfl, rfl, rfl⟩

/-- Counterexample to claim C3: the amount string "abc" is non-numeric
(`parseFloat` yields `NaN`), yet Add does NOT fail validation: it reports
success and mutates the list (storing a record whose amount is `NaN`),
contradicting the claimed "if and only if". -/
theorem addExpense_nonNumeric_counterexample :
    parseFloat "abc" = none ∧
    (addExpense 5 "1/1/2026" "abc" "Coffee" "food" initialState).2 =
      Toast.success "Expense added successfully!" ∧
    (addExpense 5 "1/1/2026" "abc" "Coffee" "food" initialState).1.expenses =
      [⟨"5", none, "Coffee", "food", "1/1/2026"⟩] :=
  ⟨rfl, rfl, rfl⟩

/-- Claim C3 as amended: Add fails validation — error toast, no mutation —
if and only if the amount string is empty, the description is empty, or the
category is unset; a non-empty non-numeric amount passes validation (and is
stored with amount `NaN`). -/
theorem addExpense_validation_iff (now : Nat)
    (dateStr amount description category : String) (s : AppState) :
    ((addExpense now dateStr amount description category s).1 = s ∧
     (addExpense now dateStr amount description category s).2 =
       Toast.error "Please fill in all fields")
      ↔ (amount = "" ∨ description = "" ∨ category = "") := by
  constructor
  · rintro ⟨-, htoast⟩
    by_contra hcond
    simp [addExpense, if_neg hcond] at htoast
  · intro hcond
    simp [addExpense, if_pos hcond]

/-- Witness for the amended C3: an empty amount field fails validation and
leaves the state untouched. -/
theorem addExpense_validation_iff_witness :
    (addExpense 5 "1/1/2026" "" "Coffee" "food" initialState).1 =
      initialState ∧
    (addExpense 5 "1/1/2026" "" "Coffee" "food" initialState).2 =
      Toast.error "Please fill in all fields" :=
  (addExpense_validation_iff 5 "1/1/2026" "" "Coffee" "food" initialState).mpr
    (Or.inl rfl)

/-- Claim C4: for every non-empty snapshot the CSV export produces the file
`cleaned_financial_data.csv` whose first row is the literal header
`Date,Description,Category,Amount`, followed by one comma-joined row per
record in snapshot order, categories resolved to display labels and amounts
two-decimal formatted; in particular the Coffee-then-Bus scenario yields the
Bus row first with amounts "12.00" and "25.50". -/
theorem exportToCSV_spec (es : List Expense) (h : es ≠ []) :
    exportToCSV es =
      (some ("cleaned_financial_data.csv",
        String.intercalate "\n"
          ("Date,Description,Category,Amount" ::
            es.map (fun e => String.intercalate ","
              [e.date, e.description, categoryLabel e.category,
               toFixed2 e.amount]))),
       Toast.success "CSV exported successfully") ∧
    (exportToCSV demoState.expenses).1 =
      some ("cleaned_financial_data.csv",
        "Date,Description,Category,Amount\n1/2/2026,Bus,Transportation,12.00\n1/1/2026,Coffee,Food & Dining,25.50") := by
  constructor
  · have hlen : ¬es.length = 0 := by
      simpa [List.length_eq_zero] using h
    simp only [exportToCSV, if_neg hlen, List.map_cons, List.map_map]
    rfl
  · with_unfolding_all rfl

/-- Witness for C4: a one-record snapshot (amount `NaN` from a non-numeric
entry) exports in the claimed shape. -/
theorem exportToCSV_spec_witness :
    exportToCSV [⟨"1", none, "Lunch", "food", "9/9/2025"⟩] =
      (some ("cleaned_financial_data.csv",
        String.intercalate "\n"
          ("Date,Description,Category,Amount" ::
            ([⟨"1", none, "Lunch", "food", "9/9/2025"⟩] : List Expense).map
              (fun e => String.intercalate ","
                [e.date, e.description, categoryLabel e.category,
                 toFixed2 e.amount]))),
       Toast.success "CSV exported successfully") :=
  (exportToCSV_spec [⟨"1", none, "Lunch", "food", "9/9/2025"⟩] (by simp)).1

lemma foldl_headers_fixed (rows : List (List (String × String)))
    (acc : List String)
    (h : ∀ r ∈ rows, ∀ k ∈ r.map Prod.fst, k ∈ acc) :
    rows.foldl
      (fun a r => a ++ (r.map Prod.fst).filter (fun k => !(a.contains k)))
      acc = acc := by
  induction rows generalizing acc with
  | nil => rfl
  | cons r rs ih =>
    have hr : (r.map Prod.fst).filter (fun k => !(acc.contains k)) = [] := by
      apply List.filter_eq_nil_iff.mpr
      intro k hk
      simpa using h r (List.mem_cons_self r rs) k hk
    simp only [List.foldl_cons, hr, List.append_nil]
    exact ih _ (fun r' hr' => h r' (List.mem_cons_of_mem _ hr'))

lemma sheetHeaders_expense_rows (e : Expense) (rest : List Expense) :
    sheetHeaders ((e :: rest).map (fun exp =>
      [("Date", exp.date), ("Description", exp.description),
       ("Category", categoryLabel exp.category),
       ("Amount 💸", toFixed2 exp.amount)])) =
      ["Date", "Description", "Category", "Amount 💸"] := by
  unfold sheetHeaders
  simp only [List.map_cons, List.foldl_cons]
  show List.foldl _ ["Date", "Description", "Category", "Amount 💸"] _ = _
  apply foldl_headers_fixed
  intro r hr k hk
  simp only [List.mem_map] at hr
  obtain ⟨x, -, rfl⟩ := hr
  simp only [List.map_cons, List.map_nil, List.mem_cons,
    List.not_mem_nil, or_false] at hk
  rcases hk with rfl | rfl | rfl | rfl <;> decide

/-- Counterexample to claim C5: the spreadsheet's fourth column header is
the literal "Amount 💸", not "Amount" as claimed (the export builds its row
objects with that key). -/
theorem exportToExcel_amount_header_counterexample :
    exportToExcel [⟨"100", none, "Coffee", "food", "1/1/2026"⟩] =
      (some ("cleaned_financial_data.xlsx",
        ⟨[("Expenses",
          ⟨["Date", "Description", "Category", "Amount 💸"],
           [["1/1/2026", "Coffee", "Food & Dining", "NaN"]]⟩)]⟩),
       Toast.success "Excel file exported successfully") ∧
    ("Amount 💸" : String) ≠ "Amount" :=
  ⟨rfl, by decide⟩

/-- Claim C5 as amended: for every non-empty snapshot the spreadsheet export
produces the file `cleaned_financial_data.xlsx` with a single sheet named
"Expenses", one row per record in snapshot order, and the four columns Date,
Description, Category and "Amount 💸" (the last differing from the claimed
"Amount"). -/
theorem exportToExcel_spec (es : List Expense) (h : es ≠ []) :
    exportToExcel es =
      (some ("cleaned_financial_data.xlsx",
        ⟨[("Expenses",
          ⟨["Date", "Description", "Category", "Amount 💸"],
           es.map (fun e => [e.date, e.description, categoryLabel e.category,
             toFixed2 e.amount])⟩)]⟩),
       Toast.success "Excel file exported successfully") := by
  cases es with
  | nil => exact absurd rfl h
  | cons e rest =>
    have hlen : ¬(e :: rest).length = 0 := by simp
    simp only [exportToExcel, if_neg hlen, json_to_sheet,
      sheetHeaders_expense_rows e rest, List.map_map]
    rfl

/-- Witness for the amended C5: a one-record snapshot. -/
theorem exportToExcel_spec_witness :
    exportToExcel [⟨"7", none, "Tea", "other", "2/2/2026"⟩] =
      (some ("cleaned_financial_data.xlsx",
        ⟨[("Expenses",
          ⟨["Date", "Description", "Category", "Amount 💸"],
           ([⟨"7", none, "Tea", "other", "2/2/2026"⟩] : List Expense).map
             (fun e => [e.date, e.description, categoryLabel e.category,
               toFixed2 e.amount])⟩)]⟩),
       Toast.success "Excel file exported successfully") :=
  exportToExcel_spec [⟨"7", none, "Tea", "other", "2/2/2026"⟩] (by simp)

lemma run_cons (a : Action) (as : List Action) (s : AppState) :
    run (a :: as) s = run as (step s a) := rfl

/-- Counterexample to claim C9: two Adds in the same millisecond (both with
`Date.now() = 100`) reach a state whose two records share the id "100". -/
theorem duplicate_id_counterexample :
    ((run [.add 100 "1/1/2026" "1" "a" "food",
           .add 100 "1/1/2026" "1" "b" "food"] initialState).expenses.map
        Expense.id) = ["100", "100"] ∧
    ¬(["100", "100"] : List String).Nodup :=
  ⟨rfl, by decide⟩

lemma run_ids_nodup_aux (as : List Action) (s : AppState)
    (h1 : (s.expenses.map Expense.id).Nodup)
    (h2 : ∀ e ∈ s.expenses, e.id ∉ addIds as)
    (h3 : (addIds as).Pairwise (· ≠ ·)) :
    (((run as s).expenses).map Expense.id).Nodup := by
  induction as generalizing s with
  | nil => exact h1
  | cons a rest ih =>
    rw [run_cons]
    cases a with
    | reset =>
      apply ih _ (by simp [step, resetAllExpenses, saveEffect])
        (by simp [step, resetAllExpenses, saveEffect]) h3
    | delete id =>
      apply ih
      · have hsub : (s.expenses.filter (fun x => x.id != id)).Sublist
            s.expenses := List.filter_sublist _
        exact h1.sublist (hsub.map Expense.id)
      · intro e he
        exact h2 e (List.mem_of_mem_filter he)
      · exact h3
    | add now d a' de c =>
      have h3' : (addIds rest).Pairwise (· ≠ ·) := (List.pairwise_cons.mp h3).2
      have hhead : ∀ y ∈ addIds rest, toString now ≠ y :=
        (List.pairwise_cons.mp h3).1
      by_cases hv : a' = "" ∨ de = "" ∨ c = ""
      · have hstep : step s (.add now d a' de c) = s := by
          simp [step, addExpense, if_pos hv]
        rw [hstep]
        exact ih s h1
          (fun e he hin => h2 e he (List.mem_cons_of_mem _ hin)) h3'
      · have hstep : (step s (.add now d a' de c)).expenses =
            ({ id := toString now, amount := parseFloat a', description := de,
               category := c, date := d } : Expense) :: s.expenses := by
          simp [step, addExpense, if_neg hv, saveEffect]
        apply ih
        · rw [hstep]
          simp only [List.map_cons]
          rw [List.nodup_cons]
          refine ⟨?_, h1⟩
          intro hmem
          obtain ⟨e, he, heq⟩ := List.mem_map.mp hmem
          exact h2 e he (by rw [heq]; exact List.mem_cons_self _ _)
        · rw [hstep]
          intro e he
          rcases List.mem_cons.mp he with rfl | hmem
          · exact fun hin => hhead _ hin rfl
          · exact fun hin => h2 e hmem (List.mem_cons_of_mem _ hin)
        · exact h3'

/-- Claim C9 as amended: in every state reachable by Add, Delete and Reset
from the fresh session, ids are unique — provided the ids the trace's Adds
assign (`Date.now().toString()`) are pairwise distinct, e.g. under a
strictly increasing clock.  Without that proviso the claim fails: two Adds
in one millisecond collide, as the id is time-derived with no collision
check. -/
theorem run_ids_nodup (as : List Action)
    (h : (addIds as).Pairwise (· ≠ ·)) :
    (((run as initialState).expenses).map Expense.id).Nodup :=
  run_ids_nodup_aux as initialState (by simp [initialState])
    (by simp [initialState]) h

/-- Witness for the amended C9: an add-delete-add trace at distinct
timestamps keeps ids unique. -/
theorem run_ids_nodup_witness :
    (((run [.add 1 "d" "2" "x" "food", .delete "1",
            .add 2 "d" "3" "y" "food"] initialState).expenses).map
        Expense.id).Nodup :=
  run_ids_nodup
    [.add 1 "d" "2" "x" "food", .delete "1", .add 2 "d" "3" "y" "food"]
    (by decide)

end PocketWise
